import Mathlib

/-!
Shallow embedding of `cupy/indexing/indexing.py` (fancy-indexing primitives
`take`, `choose`, `diagonal` and their elementwise kernels) together with
proofs of the specified properties.

Arrays are modelled in two ways, matching how the source manipulates them:

* `NDArray`: a dtype tag, a shape, and the flat row-major element data
  (elements are integers; all integer dtypes are represented by `Int`
  values plus a dtype tag).  This is the model used by `take` and `choose`,
  which only ever consume materialised row-major buffers through the
  elementwise-kernel abstraction.
* `SArr`: a strided view (dtype, shape, per-axis element strides, offset,
  base buffer), used by `diagonal`, which manipulates shape/stride/offset
  metadata and returns views.

External collaborators of the fragment (`cupy.broadcast_arrays`,
`cupy.transpose`, `cupy.reshape`, `cupy.rollaxis`, elementwise `%`,
`ndarray.__setitem__`, `cupy.empty`) are not part of the source file; they
are modelled from the specification with standard NumPy semantics and are
marked as such in their doc comments.
-/

/-- Product of a list of dimensions; models `internal.prod` / `numpy.prod`. -/
def prodl (s : List Nat) : Nat := s.foldr (· * ·) 1

/-- Row-major multi-index of flat index `i` in an array of shape `shape`.
Each coordinate is reduced modulo its dimension, so the result is always a
valid coordinate vector. -/
def unflatten : List Nat → Nat → List Nat
  | [], _ => []
  | d :: rest, i => (i / prodl rest) % d :: unflatten rest (i % prodl rest)

/-- Row-major flat index of multi-index `idx` in an array of shape `shape`. -/
def flatten : List Nat → List Nat → Nat
  | _d :: rest, c :: cs => c * prodl rest + flatten rest cs
  | _, _ => 0

/-- Pad a shape on the left with unit dimensions up to length `k`
(the implicit left-padding rule of NumPy broadcasting). -/
def padShape (s : List Nat) (k : Nat) : List Nat :=
  List.replicate (k - s.length) 1 ++ s

/-- Map a coordinate vector over the broadcast shape back to a coordinate
vector of the (padded) source shape: axes of extent 1 are pinned to 0. -/
def bcIndex : List Nat → List Nat → List Nat
  | d :: ds, c :: cs => (if d = 1 then 0 else c) :: bcIndex ds cs
  | _, _ => []

/-- Combine two broadcast-aligned dimensions, NumPy style. -/
def bdim (d1 d2 : Nat) : Option Nat :=
  if d1 = d2 then some d1
  else if d1 = 1 then some d2
  else if d2 = 1 then some d1
  else none

/-- Merge two equal-length padded shapes dimension by dimension. -/
def bcMerge : List Nat → List Nat → Option (List Nat)
  | [], [] => some []
  | d1 :: t1, d2 :: t2 => do
    let d ← bdim d1 d2
    let t ← bcMerge t1 t2
    pure (d :: t)
  | _, _ => none

/-- Modelled from the spec: the broadcast of two shapes (the broadcasting
engine is an external collaborator).  Returns `none` when the shapes are
incompatible. -/
def broadcastShapes2 (s1 s2 : List Nat) : Option (List Nat) :=
  bcMerge (padShape s1 (max s1.length s2.length)) (padShape s2 (max s1.length s2.length))

/-- Whether a (padded) source shape can be broadcast to the exact target
shape; used for assignment into a fixed output buffer. -/
def bcCompat : List Nat → List Nat → Bool
  | [], [] => true
  | d :: t, e :: u => (d == e || d == 1) && bcCompat t u
  | _, _ => false

/-- Errors surfaced by the modelled operations, mirroring the Python
exception kinds raised by the source. -/
inductive Err where
  | valueError (msg : String)
  | typeError (msg : String)
  | indexError (msg : String)
deriving DecidableEq

/-- A materialised row-major array: dtype tag, shape, flat element data. -/
structure NDArray where
  dtype : Nat
  shape : List Nat
  data : List Int
deriving DecidableEq

/-- Number of axes. -/
def NDArray.ndim (x : NDArray) : Nat := x.shape.length

/-- Apply a function to every element, keeping shape and dtype
(elementwise arithmetic such as the `%` of `choose`'s wrap mode). -/
def mapData (f : Int → Int) (x : NDArray) : NDArray :=
  { x with data := x.data.map f }

/-- Broadcast-read element `i` (flat, row-major over the broadcast shape
`bs`) of the array `x`, following NumPy broadcasting rules. -/
def bread (x : NDArray) (bs : List Nat) (i : Nat) : Int :=
  x.data.getD
    (flatten (padShape x.shape bs.length)
      (bcIndex (padShape x.shape bs.length) (unflatten bs i))) 0

/-- Modelled from the spec: materialise the broadcast of `x` to shape `bs`
(`cupy.broadcast_arrays` is an external collaborator). -/
def bcast (x : NDArray) (bs : List Nat) : NDArray :=
  { x with shape := bs, data := (List.range (prodl bs)).map fun i => bread x bs i }

/-- Modelled from the spec: `y[0]`, the first slice along the leading axis
of a materialised row-major array. -/
def slice0 (x : NDArray) : NDArray :=
  { x with shape := x.shape.tail, data := x.data.take (prodl x.shape.tail) }

/-- Modelled from the spec: `cupy.ravel`; row-major flattening is a pure
reshape of the materialised buffer. -/
def ravel (x : NDArray) : NDArray :=
  { x with shape := [prodl x.shape] }

/-- The axis permutation of `cupy.rollaxis(a, ax)` (roll `ax` to front). -/
def rollaxisPerm (ndim ax : Nat) : List Nat :=
  ax :: (List.range ndim).eraseIdx ax

/-- Modelled from the spec: `cupy.transpose` materialised on the row-major
model; `new[c] = old[o]` where `o[perm[j]] = c[j]`. -/
def transposeN (x : NDArray) (perm : List Nat) : NDArray :=
  { x with
    shape := perm.map fun p => x.shape.getD p 0,
    data :=
      (List.range (prodl (perm.map fun p => x.shape.getD p 0))).map fun i =>
        x.data.getD
          (flatten x.shape
            ((List.range x.ndim).map fun p =>
              (unflatten (perm.map fun q => x.shape.getD q 0) i).getD (perm.indexOf p) 0)) 0 }

/-- Modelled from the spec: full-array assignment `o[:] = src` — the
right-hand side is broadcast to the shape of `o` and written in, cast to
`o`'s dtype (a cast between the modelled integer dtypes keeps the value). -/
def setItemAll (o src : NDArray) : Except Err NDArray :=
  if src.ndim ≤ o.ndim ∧ bcCompat (padShape src.shape o.ndim) o.shape = true then
    .ok { o with data := (List.range (prodl o.shape)).map fun i => bread src o.shape i }
  else
    .error (.valueError "could not broadcast")

/-- `cupy.expand_dims(x, 0)`: prepend a unit axis. -/
def expand_dims0 (x : NDArray) : NDArray :=
  { x with shape := 1 :: x.shape }

/-- `cupy.expand_dims(x, 1)`: insert a unit axis at position 1. -/
def expand_dims1 (x : NDArray) : NDArray :=
  { x with shape :=
      match x.shape with
      | [] => [1]
      | d :: rest => d :: 1 :: rest }

/-- `for i in range(k): a = expand_dims(a, 0)` from `choose`. -/
def expandLoop0 : Nat → NDArray → NDArray
  | 0, x => x
  | k + 1, x => expandLoop0 k (expand_dims0 x)

/-- `for i in range(k): choices = expand_dims(choices, 1)` from `choose`. -/
def expandLoop1 : Nat → NDArray → NDArray
  | 0, x => x
  | k + 1, x => expandLoop1 k (expand_dims1 x)

/-- The selector after the rank-alignment loop of `choose`
(`if a.ndim < choices.ndim - 1: ...`), with Python integer arithmetic on
the rank difference. -/
def alignA (a choices : NDArray) : NDArray :=
  if (a.ndim : Int) < (choices.ndim : Int) - 1 then
    expandLoop0 (choices.ndim - 1 - a.ndim) a
  else a

/-- The choices array after the rank-alignment loop of `choose`
(`elif a.ndim > choices.ndim - 1: ...`). -/
def alignChoices (a choices : NDArray) : NDArray :=
  if (a.ndim : Int) > (choices.ndim : Int) - 1 then
    expandLoop1 (a.ndim + 1 - choices.ndim) choices
  else choices

/-- The common broadcast shape computed by `cupy.broadcast_arrays(a, choices)`
inside `choose`, after rank alignment. -/
def chooseBShape (a choices : NDArray) : Option (List Nat) :=
  broadcastShapes2 (alignA a choices).shape (alignChoices a choices).shape

/-- The `_choose_kernel` elementwise kernel: `y = choices[i + n_channel * a]`,
with `choices` a raw (flat) argument and `a` the selector; output elements
have the choices dtype `T`. -/
def choose_kernel (sel : NDArray) (choicesData : List Int) (nch : Nat) (dt : Nat) : NDArray :=
  { dtype := dt, shape := sel.shape,
    data := (List.range (prodl sel.shape)).map fun i =>
      choicesData.getD ((Int.ofNat i + (nch : Int) * sel.data.getD i 0).toNat) 0 }

/-- The `_choose_clip_kernel` elementwise kernel: the selector is clamped to
`[0, n-1]` before the gather. -/
def choose_clip_kernel (sel : NDArray) (choicesData : List Int) (nch n : Nat) (dt : Nat) :
    NDArray :=
  { dtype := dt, shape := sel.shape,
    data := (List.range (prodl sel.shape)).map fun i =>
      let v := sel.data.getD i 0
      let x := if v < 0 then 0 else if (n : Int) ≤ v then (n : Int) - 1 else v
      choicesData.getD ((Int.ofNat i + (nch : Int) * x).toNat) 0 }

/-- Embedding of `choose(a, choices, out=None, mode='raise')`.  The `out`
argument is accepted and — exactly as in the source — never used.  In terms
of the source's local names: `n = choices.shape[0]` is
`choices.shape.headD 0`, `ba = bcast (alignA a choices) bs`,
`bcs = bcast (alignChoices a choices) bs`, `ba[0] = slice0 ba`,
`n_channel = prodl (slice0 bcs).shape`; the subterms are written out
instead of bound to locals. -/
def choose (a choices : NDArray) (outp : Option NDArray) (mode : String) : Except Err NDArray :=
  match chooseBShape a choices with
  | none => .error (.valueError "could not broadcast")
  | some bs =>
    if mode = "raise" then
      if (alignA a choices).data.all
          (fun v => decide (v < ((choices.shape.headD 0 : Nat) : Int)) && decide (0 ≤ v)) then
        .ok (choose_kernel (slice0 (bcast (alignA a choices) bs))
          (bcast (alignChoices a choices) bs).data
          (prodl (slice0 (bcast (alignChoices a choices) bs)).shape) choices.dtype)
      else
        .error (.valueError "invalid entry in choice array")
    else if mode = "wrap" then
      .ok (choose_kernel
        (mapData (fun v => v.emod ((choices.shape.headD 0 : Nat) : Int))
          (slice0 (bcast (alignA a choices) bs)))
        (bcast (alignChoices a choices) bs).data
        (prodl (slice0 (bcast (alignChoices a choices) bs)).shape) choices.dtype)
    else if mode = "clip" then
      .ok (choose_clip_kernel (slice0 (bcast (alignA a choices) bs))
        (bcast (alignChoices a choices) bs).data
        (prodl (slice0 (bcast (alignChoices a choices) bs)).shape)
        (choices.shape.headD 0) choices.dtype)
    else
      .error (.typeError "clipmode not understood")

/-- The two forms of the `indices` argument of `take` (a scalar index, or
an integer array; list arguments are converted to arrays by the source). -/
inductive Indices where
  | scalar (k : Int)
  | array (arr : NDArray)

/-- The `_take_kernel` elementwise kernel:
`li = i / (rdim * cdim); ri = i % rdim; out = a[(li*cdim + indices)*rdim + ri]`,
with `a` raw (flat) and `indices` a broadcast elementwise argument read at
the output's flat index over `outShape`. -/
def take_kernel (aData : List Int) (indArr : NDArray) (cdim rdim : Nat)
    (outShape : List Nat) (dt : Nat) : NDArray :=
  { dtype := dt, shape := outShape,
    data := (List.range (prodl outShape)).map fun i =>
      let li := i / (rdim * cdim)
      let ri := i % rdim
      aData.getD
        (((Int.ofNat li * Int.ofNat cdim + bread indArr outShape i) * Int.ofNat rdim
            + Int.ofNat ri).toNat) 0 }

/-- The body of `take` after axis handling: `a1` is the (possibly ravelled)
source, `lshape`/`rshape` the parts of the shape before and after the axis,
`ax0` the axis used by `rollaxis` on the scalar path.  Returns the result
(or error) together with the final contents of the `out` buffer. -/
def takeCore (a1 : NDArray) (indices : Indices) (ax0 : Nat)
    (lshape rshape : List Nat) (outp : Option NDArray) :
    Except Err NDArray × Option NDArray :=
  match indices with
  | .scalar k =>
    let a2 := transposeN a1 (rollaxisPerm a1.ndim ax0)
    let d := a2.shape.headD 0
    let k2 := if k < 0 then k + (d : Int) else k
    if 0 ≤ k2 ∧ k2 < (d : Int) then
      let m := prodl a2.shape.tail
      let sliced : NDArray :=
        { dtype := a1.dtype, shape := a2.shape.tail,
          data := (a2.data.drop (k2.toNat * m)).take m }
      match outp with
      | none => (.ok sliced, none)
      | some o =>
        match setItemAll o sliced with
        | .ok o2 => (.ok o2, some o2)
        | .error e => (.error e, some o)
    else
      (.error (.indexError "index out of range"), outp)
  | .array ind =>
    let outShape := lshape ++ ind.shape ++ rshape
    let cdim := prodl ind.shape
    let rdim := prodl rshape
    let indR : NDArray :=
      { ind with shape :=
          List.replicate lshape.length 1 ++ ind.shape ++ List.replicate rshape.length 1 }
    match outp with
    | none =>
      let res := take_kernel a1.data indR cdim rdim outShape a1.dtype
      (.ok res, none)
    | some o =>
      if o.dtype ≠ a1.dtype then
        (.error (.typeError "Output dtype mismatch"), some o)
      else if o.shape ≠ outShape then
        (.error (.valueError "Output shape mismatch"), some o)
      else
        let res := take_kernel a1.data indR cdim rdim outShape a1.dtype
        (.ok res, some res)

/-- Embedding of `take(a, indices, axis=None, out=None)`.  With `axis = none`
the source is ravelled (`rollaxis` on the resulting rank-1 array is modelled
from the spec as the identity, axis 0).  The second component of the result
is the final contents of the caller-supplied `out` buffer. -/
def take (a : NDArray) (indices : Indices) (axis : Option Nat) (outp : Option NDArray) :
    Except Err NDArray × Option NDArray :=
  match axis with
  | none => takeCore (ravel a) indices 0 [] [] outp
  | some ax =>
    if a.ndim ≤ ax then
      (.error (.valueError "Axis overrun"), outp)
    else
      takeCore a indices ax (a.shape.take ax) (a.shape.drop (ax + 1)) outp

/-- A strided array view: dtype tag, shape, per-axis element strides,
offset of the first element, and the (shared) base buffer. -/
structure SArr where
  dtype : Nat
  shape : List Nat
  strides : List Int
  offset : Int
  base : List Int
deriving DecidableEq

/-- Dot product of strides with a coordinate vector. -/
def dotSI : List Int → List Nat → Int
  | s :: ss, c :: cs => s * (c : Int) + dotSI ss cs
  | _, _ => 0

/-- Element of a strided view at a multi-index. -/
def sget (a : SArr) (idx : List Nat) : Int :=
  a.base.getD ((a.offset + dotSI a.strides idx).toNat) 0

/-- Row-major (C-contiguous) element strides for a given shape. -/
def contigStrides : List Nat → List Int
  | [] => []
  | _ :: rest => (prodl rest : Int) :: contigStrides rest

/-- Modelled from the spec: `cupy.empty(shape, dtype)` — a freshly allocated
C-contiguous array (its contents are indeterminate; the model fills zeros). -/
def emptyS (shape : List Nat) (dt : Nat) : SArr :=
  { dtype := dt, shape := shape, strides := contigStrides shape,
    offset := 0, base := List.replicate (prodl shape) 0 }

/-- Modelled from the spec: `cupy.transpose` on a strided view permutes the
shape and strides metadata only. -/
def transposeS (a : SArr) (perm : List Nat) : SArr :=
  { a with
    shape := perm.map fun p => a.shape.getD p 0,
    strides := perm.map fun p => a.strides.getD p 0 }

/-- The axis-reordering step of `diagonal` (lines 119-131 of the source):
move the two selected axes to the back — in order `(axis1, axis2)` when
`offset ≥ 0`, else `(axis2, axis1)` with the offset negated. Returns the
transposed view and the adjusted (now nonnegative) offset. -/
def diagTrans (a : SArr) (offset : Int) (axis1 axis2 : Nat) : SArr × Int :=
  let mn := if axis1 < axis2 then axis1 else axis2
  let mx := if axis1 < axis2 then axis2 else axis1
  let tr := ((List.range a.shape.length).eraseIdx mx).eraseIdx mn
  if 0 ≤ offset then
    (transposeS a (tr ++ [axis1, axis2]), offset)
  else
    (transposeS a (tr ++ [axis2, axis1]), -offset)

/-- Embedding of `diagonal(a, offset=0, axis1=0, axis2=1)`.  After the axis
reordering, `diag_size = max(0, min(shape[-2], shape[-1] - offset))`; when it
is zero a fresh empty array is returned, otherwise the source is windowed by
`a[..., :diag_size, offset:offset+diag_size]` and a view is built whose
trailing stride is the sum of the two trailing strides. -/
def diagonal (a : SArr) (offset : Int) (axis1 axis2 : Nat) : SArr :=
  let p := diagTrans a offset axis1 axis2
  let a1 := p.1
  let off := p.2
  let d2 := a1.shape.getD (a1.shape.length - 2) 0
  let d1 := a1.shape.getD (a1.shape.length - 1) 0
  let ds := (min (d2 : Int) ((d1 : Int) - off)).toNat
  let retShape := a1.shape.dropLast.dropLast ++ [ds]
  if ds = 0 then
    emptyS retShape a.dtype
  else
    let s2 := a1.strides.getD (a1.strides.length - 2) 0
    let s1 := a1.strides.getD (a1.strides.length - 1) 0
    -- the window `a1[..., :ds, off:off+ds]` keeps the strides and moves the
    -- offset by `off` steps of the trailing stride; the view then merges the
    -- two trailing axes into one of stride `s1 + s2`
    { dtype := a1.dtype,
      shape := retShape,
      strides := a1.strides.dropLast.dropLast ++ [s1 + s2],
      offset := a1.offset + off * s1,
      base := a1.base }

deriving instance DecidableEq for Except

theorem prodl_nil : prodl [] = 1 := rfl

theorem prodl_cons (d : Nat) (s : List Nat) : prodl (d :: s) = d * prodl s := rfl

theorem prodl_append (s t : List Nat) : prodl (s ++ t) = prodl s * prodl t := by
  induction s with
  | nil => simp [prodl_nil, prodl]
  | cons d rest ih => simp [prodl_cons, ih, Nat.mul_assoc]

theorem prodl_replicate_one (k : Nat) : prodl (List.replicate k 1) = 1 := by
  induction k with
  | zero => rfl
  | succ k ih => simp [List.replicate_succ, prodl_cons, ih]

theorem unflatten_length (s : List Nat) (i : Nat) : (unflatten s i).length = s.length := by
  induction s generalizing i with
  | nil => rfl
  | cons d rest ih => simp [unflatten, ih]

theorem unflatten_mod (s : List Nat) (i : Nat) :
    unflatten s (i % prodl s) = unflatten s i := by
  induction s generalizing i with
  | nil => rfl
  | cons d rest ih =>
    simp only [unflatten, prodl_cons]
    congr 1
    · rw [Nat.mul_comm d (prodl rest), Nat.mod_mul_right_div_self,
        Nat.mod_mod_of_dvd _ dvd_rfl]
    · rw [Nat.mod_mod_of_dvd i (dvd_mul_left (prodl rest) d), ih]

theorem unflatten_append (s t : List Nat) (i : Nat) :
    unflatten (s ++ t) i = unflatten s (i / prodl t) ++ unflatten t (i % prodl t) := by
  induction s generalizing i with
  | nil => simp [unflatten, unflatten_mod]
  | cons d rest ih =>
    have hpa : prodl (rest ++ t) = prodl rest * prodl t := prodl_append rest t
    show (i / prodl (rest ++ t)) % d :: unflatten (rest ++ t) (i % prodl (rest ++ t))
        = ((i / prodl t / prodl rest) % d)
          :: (unflatten rest ((i / prodl t) % prodl rest) ++ unflatten t (i % prodl t))
    rw [ih, hpa, Nat.mul_comm (prodl rest) (prodl t), ← Nat.div_div_eq_div_mul,
      Nat.mod_mul_right_div_self, Nat.mod_mod_of_dvd i (dvd_mul_right (prodl t) (prodl rest))]

theorem flatten_append (s t c e : List Nat) (h : c.length = s.length) :
    flatten (s ++ t) (c ++ e) = flatten s c * prodl t + flatten t e := by
  induction s generalizing c with
  | nil =>
    have hc : c = [] := List.eq_nil_of_length_eq_zero (by simpa using h)
    subst hc
    simp [flatten]
  | cons d rest ih =>
    cases c with
    | nil => simp at h
    | cons c0 cs =>
      have h2 : cs.length = rest.length := by simpa using h
      show c0 * prodl (rest ++ t) + flatten (rest ++ t) (cs ++ e)
          = (c0 * prodl rest + flatten rest cs) * prodl t + flatten t e
      rw [ih cs h2, prodl_append]
      ring

theorem flatten_replicate_zero (s : List Nat) (k : Nat) :
    flatten s (List.replicate k 0) = 0 := by
  induction s generalizing k with
  | nil => rfl
  | cons d rest ih =>
    cases k with
    | zero => rfl
    | succ k => simp [List.replicate_succ, flatten, ih]

theorem bcIndex_append (s t c e : List Nat) (h : s.length = c.length) :
    bcIndex (s ++ t) (c ++ e) = bcIndex s c ++ bcIndex t e := by
  induction s generalizing c with
  | nil =>
    have hc : c = [] := List.eq_nil_of_length_eq_zero (by simpa using h.symm)
    subst hc
    simp [bcIndex]
  | cons d rest ih =>
    cases c with
    | nil => simp at h
    | cons c0 cs =>
      simp only [List.length_cons, Nat.succ.injEq] at h
      simp [bcIndex, ih cs h]

theorem bcIndex_replicate_one (k : Nat) (c : List Nat) (h : c.length = k) :
    bcIndex (List.replicate k 1) c = List.replicate k 0 := by
  induction k generalizing c with
  | zero => simp [bcIndex, List.eq_nil_of_length_eq_zero h]
  | succ k ih =>
    cases c with
    | nil => simp at h
    | cons c0 cs =>
      simp only [List.length_cons, Nat.succ.injEq] at h
      simp [List.replicate_succ, bcIndex, ih cs h]

theorem bcIndex_unflatten (s : List Nat) (i : Nat) :
    bcIndex s (unflatten s i) = unflatten s i := by
  induction s generalizing i with
  | nil => rfl
  | cons d rest ih =>
    simp only [unflatten, bcIndex, ih]
    rcases eq_or_ne d 1 with hd | hd
    · simp [hd, Nat.mod_one]
    · simp [hd]

theorem flatten_unflatten (s : List Nat) (i : Nat) :
    flatten s (unflatten s i) = i % prodl s := by
  induction s generalizing i with
  | nil => simp [flatten, prodl_nil, Nat.mod_one]
  | cons d rest ih =>
    simp only [unflatten, flatten, ih, prodl_cons]
    rw [Nat.mod_mod_of_dvd i dvd_rfl, Nat.mul_comm d (prodl rest), Nat.mod_mul]
    ring

theorem padShape_self (s : List Nat) (k : Nat) (h : s.length = k) : padShape s k = s := by
  simp [padShape, h]

theorem bread_reshaped (ind : NDArray) (lsh rsh : List Nat) (i : Nat) :
    bread { ind with shape :=
        List.replicate lsh.length 1 ++ ind.shape ++ List.replicate rsh.length 1 }
      (lsh ++ ind.shape ++ rsh) i
      = ind.data.getD ((i / prodl rsh) % prodl ind.shape) 0 := by
  have hlen : (List.replicate lsh.length 1 ++ ind.shape ++ List.replicate rsh.length 1).length
      = (lsh ++ ind.shape ++ rsh).length := by
    simp [List.length_append, List.length_replicate]
  unfold bread
  simp only []
  rw [padShape_self _ _ hlen]
  rw [unflatten_append (lsh ++ ind.shape) rsh i]
  rw [unflatten_append lsh ind.shape (i / prodl rsh)]
  rw [bcIndex_append (List.replicate lsh.length 1 ++ ind.shape) (List.replicate rsh.length 1)
    _ _ (by simp [List.length_append, List.length_replicate, unflatten_length])]
  rw [bcIndex_append (List.replicate lsh.length 1) ind.shape _ _
    (by simp [List.length_replicate, unflatten_length])]
  rw [bcIndex_replicate_one lsh.length _ (by simp [unflatten_length])]
  rw [bcIndex_unflatten]
  rw [bcIndex_replicate_one rsh.length _ (by simp [unflatten_length])]
  rw [flatten_append (List.replicate lsh.length 1 ++ ind.shape) (List.replicate rsh.length 1)
    _ _ (by simp [List.length_append, List.length_replicate, unflatten_length])]
  rw [flatten_append (List.replicate lsh.length 1) ind.shape _ _
    (by simp [List.length_replicate, unflatten_length])]
  rw [flatten_replicate_zero, flatten_replicate_zero, flatten_unflatten,
    prodl_replicate_one, Nat.mod_mod_of_dvd _ dvd_rfl]
  ring_nf

theorem mapData_shape (f : Int → Int) (x : NDArray) : (mapData f x).shape = x.shape := rfl

theorem mapData_ndim (f : Int → Int) (x : NDArray) : (mapData f x).ndim = x.ndim := rfl

theorem getD_map_zero (f : Int → Int) (hf : f 0 = 0) (l : List Int) (n : Nat) :
    (l.map f).getD n 0 = f (l.getD n 0) := by
  induction l generalizing n with
  | nil => simp [hf]
  | cons x xs ih =>
    cases n with
    | zero => simp
    | succ n => simpa using ih n

theorem bread_mapData (f : Int → Int) (hf : f 0 = 0) (x : NDArray) (bs : List Nat) (i : Nat) :
    bread (mapData f x) bs i = f (bread x bs i) := by
  simp only [bread, mapData]
  exact getD_map_zero f hf _ _

theorem expandLoop0_eq (k : Nat) (x : NDArray) :
    expandLoop0 k x = { x with shape := List.replicate k 1 ++ x.shape } := by
  induction k generalizing x with
  | zero => rfl
  | succ k ih =>
    rw [expandLoop0, ih]
    simp [expand_dims0, List.replicate_succ']

theorem alignA_mapData (f : Int → Int) (a choices : NDArray) :
    alignA (mapData f a) choices = mapData f (alignA a choices) := by
  unfold alignA
  simp only [mapData_ndim]
  by_cases h : ((a.ndim : Int) < (choices.ndim : Int) - 1)
  · rw [if_pos h, if_pos h, expandLoop0_eq, expandLoop0_eq]
    rfl
  · rw [if_neg h, if_neg h]

theorem alignChoices_mapData (f : Int → Int) (a choices : NDArray) :
    alignChoices (mapData f a) choices = alignChoices a choices := rfl

theorem chooseBShape_mapData (f : Int → Int) (a choices : NDArray) :
    chooseBShape (mapData f a) choices = chooseBShape a choices := by
  unfold chooseBShape
  rw [alignA_mapData]
  rfl

theorem slice0_bcast_mapData (f : Int → Int) (hf : f 0 = 0) (x : NDArray) (bs : List Nat) :
    slice0 (bcast (mapData f x) bs) = mapData f (slice0 (bcast x bs)) := by
  have h1 : ((List.range (prodl bs)).map fun i => bread (mapData f x) bs i)
      = ((List.range (prodl bs)).map fun i => bread x bs i).map f := by
    rw [List.map_map]
    exact List.map_congr_left fun i _ => bread_mapData f hf x bs i
  show NDArray.mk x.dtype bs.tail
      (((List.range (prodl bs)).map fun i => bread (mapData f x) bs i).take (prodl bs.tail))
    = NDArray.mk x.dtype bs.tail
      ((((List.range (prodl bs)).map fun i => bread x bs i).take (prodl bs.tail)).map f)
  rw [h1, ← List.map_take]

/-- C2: for every integer selector array `a` and choices array whose leading
dimension `n = choices.shape[0]` is positive, `choose(a, choices, mode='wrap')`
returns exactly the same array (same shape, dtype and elements) as
`choose(a % n, choices, mode='raise')`, where `%` is the elementwise Python
modulo (`Int.emod`, nonnegative for a positive modulus). -/
theorem choose_wrap_eq_choose_raise_mod (a choices : NDArray) (outp : Option NDArray)
    (hn : 0 < choices.shape.headD 0) :
    choose a choices outp "wrap"
      = choose (mapData (fun v => v.emod ((choices.shape.headD 0 : Nat) : Int)) a)
          choices outp "raise" := by
  have hne : ((choices.shape.headD 0 : Nat) : Int) ≠ 0 := by
    exact_mod_cast Nat.pos_iff_ne_zero.mp hn
  have hpos : (0 : Int) < ((choices.shape.headD 0 : Nat) : Int) := by exact_mod_cast hn
  unfold choose
  rw [chooseBShape_mapData]
  cases hbs : chooseBShape a choices with
  | none => rfl
  | some bs =>
    dsimp only
    have hall : (alignA (mapData (fun v => v.emod ((choices.shape.headD 0 : Nat) : Int)) a)
          choices).data.all
        (fun v => decide (v < ((choices.shape.headD 0 : Nat) : Int)) && decide (0 ≤ v))
        = true := by
      rw [alignA_mapData]
      refine List.all_eq_true.mpr ?_
      intro v hv
      obtain ⟨w, hw, rfl⟩ := List.mem_map.mp hv
      simp only [Bool.and_eq_true, decide_eq_true_eq]
      exact ⟨Int.emod_lt_of_pos w hpos, Int.emod_nonneg w hne⟩
    rw [if_neg (by decide : ¬("wrap" = "raise")), if_pos (rfl : "wrap" = "wrap"),
      if_pos (rfl : "raise" = "raise"), if_pos hall, alignA_mapData,
      slice0_bcast_mapData (fun v : Int => v.emod ((choices.shape.headD 0 : Nat) : Int))
        (Int.zero_emod ((choices.shape.headD 0 : Nat) : Int)), alignChoices_mapData]

theorem alignA_data (a choices : NDArray) : (alignA a choices).data = a.data := by
  unfold alignA
  split
  · rw [expandLoop0_eq]
  · rfl

/-- Concrete selector for the C2 witness (contains out-of-range and negative
entries, so wrap really remaps). -/
def c2Sel : NDArray := ⟨3, [4], [2, 7, -3, 0]⟩

/-- Concrete choices array for the C2 witness. -/
def c2Choices : NDArray :=
  ⟨9, [4, 4], [0, 1, 2, 3, 10, 11, 12, 13, 20, 21, 22, 23, 30, 31, 32, 33]⟩

/-- Witness for C2 at a concrete input. -/
theorem choose_wrap_eq_choose_raise_mod_witness :
    0 < c2Choices.shape.headD 0 ∧
      choose c2Sel c2Choices none "wrap"
        = choose (mapData (fun v => v.emod ((c2Choices.shape.headD 0 : Nat) : Int)) c2Sel)
            c2Choices none "raise" :=
  ⟨by decide, choose_wrap_eq_choose_raise_mod c2Sel c2Choices none (by decide)⟩

/-- C5: for a call `choose(a, choices, mode='raise')` whose operands broadcast
(`chooseBShape` succeeds): if some selector element lies outside `[0, n)` with
`n = choices.shape[0]`, the call returns the value error
`invalid entry in choice array` and no gather result is produced; if every
selector element lies in `[0, n)`, no error is raised and the gather result of
`_choose_kernel` is returned. -/
theorem choose_raise_validates (a choices : NDArray) (outp : Option NDArray) (bs : List Nat)
    (hbs : chooseBShape a choices = some bs) :
    (¬ (∀ v ∈ a.data, 0 ≤ v ∧ v < ((choices.shape.headD 0 : Nat) : Int)) →
      choose a choices outp "raise" = .error (.valueError "invalid entry in choice array")) ∧
    ((∀ v ∈ a.data, 0 ≤ v ∧ v < ((choices.shape.headD 0 : Nat) : Int)) →
      choose a choices outp "raise"
        = .ok (choose_kernel (slice0 (bcast (alignA a choices) bs))
            (bcast (alignChoices a choices) bs).data
            (prodl (slice0 (bcast (alignChoices a choices) bs)).shape) choices.dtype)) := by
  have hiff : ((alignA a choices).data.all
      (fun v => decide (v < ((choices.shape.headD 0 : Nat) : Int)) && decide (0 ≤ v)) = true)
      ↔ (∀ v ∈ a.data, 0 ≤ v ∧ v < ((choices.shape.headD 0 : Nat) : Int)) := by
    rw [alignA_data, List.all_eq_true]
    constructor
    · intro h v hv
      have h2 := h v hv
      simp only [Bool.and_eq_true, decide_eq_true_eq] at h2
      exact ⟨h2.2, h2.1⟩
    · intro h v hv
      simp only [Bool.and_eq_true, decide_eq_true_eq]
      exact ⟨(h v hv).2, (h v hv).1⟩
  unfold choose
  rw [hbs]
  dsimp only
  rw [if_pos (rfl : "raise" = "raise")]
  constructor
  · intro hbad
    rw [if_neg (fun hc => hbad (hiff.mp hc))]
  · intro hgood
    rw [if_pos (hiff.mpr hgood)]

/-- Concrete selector for the C5 witness (5 is out of range for two choices). -/
def c5Sel : NDArray := ⟨3, [2], [0, 5]⟩

/-- Concrete choices array for the C5 witness. -/
def c5Choices : NDArray := ⟨9, [2, 2], [1, 2, 3, 4]⟩

/-- Witness for C5 at a concrete input. -/
theorem choose_raise_validates_witness :
    chooseBShape c5Sel c5Choices = some [2, 2] ∧
      ((¬ (∀ v ∈ c5Sel.data, 0 ≤ v ∧ v < ((c5Choices.shape.headD 0 : Nat) : Int)) →
        choose c5Sel c5Choices none "raise"
          = .error (.valueError "invalid entry in choice array")) ∧
      ((∀ v ∈ c5Sel.data, 0 ≤ v ∧ v < ((c5Choices.shape.headD 0 : Nat) : Int)) →
        choose c5Sel c5Choices none "raise"
          = .ok (choose_kernel (slice0 (bcast (alignA c5Sel c5Choices) [2, 2]))
              (bcast (alignChoices c5Sel c5Choices) [2, 2]).data
              (prodl (slice0 (bcast (alignChoices c5Sel c5Choices) [2, 2])).shape)
              c5Choices.dtype))) :=
  ⟨by decide, choose_raise_validates c5Sel c5Choices none [2, 2] (by decide)⟩

theorem choose_clip_kernel_eq_clamped (sel : NDArray) (D : List Int) (nch n : Nat) (dt : Nat)
    (hn : 0 < n) :
    choose_clip_kernel sel D nch n dt
      = choose_kernel
          (mapData (fun v => if v < 0 then 0 else if (n : Int) ≤ v then (n : Int) - 1 else v) sel)
          D nch dt := by
  have hc0 : (fun v : Int => if v < 0 then 0 else if (n : Int) ≤ v then (n : Int) - 1 else v) 0
      = 0 := by
    have hn2 : ¬ ((n : Int) ≤ 0) := by exact_mod_cast Nat.not_le.mpr hn
    simp [hn2]
  unfold choose_clip_kernel choose_kernel
  refine congrArg (NDArray.mk dt sel.shape) ?_
  refine List.map_congr_left fun i _ => ?_
  simp only [mapData]
  rw [getD_map_zero _ hc0]

/-- C6: for a call `choose(selector, choices, mode='clip')` whose operands
broadcast and whose choices count `n = choices.shape[0]` is positive, no error
is raised even for out-of-range selector values, and the result is the plain
gather applied to the clamped selector: entries `< 0` select choice `0`,
entries `≥ n` select choice `n - 1`, and in-range entries select themselves. -/
theorem choose_clip_clamps (a choices : NDArray) (outp : Option NDArray) (bs : List Nat)
    (hbs : chooseBShape a choices = some bs) (hn : 0 < choices.shape.headD 0) :
    choose a choices outp "clip"
      = .ok (choose_kernel
          (mapData (fun v =>
              if v < 0 then 0
              else if ((choices.shape.headD 0 : Nat) : Int) ≤ v then
                ((choices.shape.headD 0 : Nat) : Int) - 1
              else v)
            (slice0 (bcast (alignA a choices) bs)))
          (bcast (alignChoices a choices) bs).data
          (prodl (slice0 (bcast (alignChoices a choices) bs)).shape) choices.dtype) := by
  unfold choose
  rw [hbs]
  dsimp only
  rw [if_neg (by decide : ¬("clip" = "raise")), if_neg (by decide : ¬("clip" = "wrap")),
    if_pos (rfl : "clip" = "clip"), choose_clip_kernel_eq_clamped _ _ _ _ _ hn]

/-- Concrete selector for the C6 witness (one negative and one too-large
entry). -/
def c6Sel : NDArray := ⟨3, [4], [2, 4, 1, -1]⟩

/-- Concrete choices array for the C6 witness. -/
def c6Choices : NDArray :=
  ⟨9, [4, 4], [0, 1, 2, 3, 10, 11, 12, 13, 20, 21, 22, 23, 30, 31, 32, 33]⟩

/-- Witness for C6 at a concrete input. -/
theorem choose_clip_clamps_witness :
    chooseBShape c6Sel c6Choices = some [4, 4] ∧ 0 < c6Choices.shape.headD 0 ∧
      choose c6Sel c6Choices none "clip"
        = .ok (choose_kernel
            (mapData (fun v =>
                if v < 0 then 0
                else if ((c6Choices.shape.headD 0 : Nat) : Int) ≤ v then
                  ((c6Choices.shape.headD 0 : Nat) : Int) - 1
                else v)
              (slice0 (bcast (alignA c6Sel c6Choices) [4, 4])))
            (bcast (alignChoices c6Sel c6Choices) [4, 4]).data
            (prodl (slice0 (bcast (alignChoices c6Sel c6Choices) [4, 4])).shape)
            c6Choices.dtype) :=
  ⟨by decide, by decide, choose_clip_clamps c6Sel c6Choices none [4, 4] (by decide) (by decide)⟩

/-- C10: the caller-supplied `out` argument of `choose` is completely ignored:
the call's result is identical to the call without `out`, in every mode (the
model is functional, so in particular nothing is ever read from or written to
the buffer passed as `out`). -/
theorem choose_ignores_out (a choices : NDArray) (outp : Option NDArray) (mode : String) :
    choose a choices outp mode = choose a choices none mode := rfl

/-- C9: every call to `take` with an explicit axis `ax ≥ a.ndim` fails with
the `Axis overrun` value error, for both indices forms and any `out`, and the
`out` buffer is returned untouched — the check happens before any kernel
dispatch or other computation. -/
theorem take_axis_overrun (a : NDArray) (indices : Indices) (ax : Nat)
    (outp : Option NDArray) (hax : a.ndim ≤ ax) :
    take a indices (some ax) outp = (.error (.valueError "Axis overrun"), outp) := by
  unfold take
  dsimp only
  rw [if_pos hax]

/-- Concrete source array for the C9 witness. -/
def c9Arr : NDArray := ⟨7, [2, 3], [0, 1, 2, 3, 4, 5]⟩

/-- Witness for C9 at a concrete input (rank 2, axis 5). -/
theorem take_axis_overrun_witness :
    c9Arr.ndim ≤ 5 ∧
      take c9Arr (.scalar 0) (some 5) none = (.error (.valueError "Axis overrun"), none) :=
  ⟨by decide, take_axis_overrun c9Arr (.scalar 0) 5 none (by decide)⟩

/-- C4: for an integer index array and a valid axis,
`take(a, indices, axis)` succeeds and its shape is
`a.shape[:axis] ++ indices.shape ++ a.shape[axis+1:]`; with `axis` unset the
source is treated as flattened and the result shape is `indices.shape`. -/
theorem take_result_shape (a ind : NDArray) (ax : Nat) (hax : ax < a.ndim) :
    (∃ r, (take a (.array ind) (some ax) none).1 = .ok r ∧
        r.shape = a.shape.take ax ++ ind.shape ++ a.shape.drop (ax + 1)) ∧
    (∃ r2, (take a (.array ind) none none).1 = .ok r2 ∧ r2.shape = ind.shape) := by
  constructor
  · have h1 : (take a (.array ind) (some ax) none).1
        = .ok (take_kernel a.data
            { ind with shape := List.replicate (a.shape.take ax).length 1 ++ ind.shape
                ++ List.replicate (a.shape.drop (ax + 1)).length 1 }
            (prodl ind.shape) (prodl (a.shape.drop (ax + 1)))
            (a.shape.take ax ++ ind.shape ++ a.shape.drop (ax + 1)) a.dtype) := by
      unfold take
      dsimp only
      rw [if_neg (Nat.not_le.mpr hax)]
      rfl
    exact ⟨_, h1, rfl⟩
  · have h2 : (take a (.array ind) none none).1
        = .ok (take_kernel (ravel a).data
            { ind with shape := List.replicate (List.length ([] : List Nat)) 1 ++ ind.shape
                ++ List.replicate (List.length ([] : List Nat)) 1 }
            (prodl ind.shape) (prodl ([] : List Nat))
            (([] : List Nat) ++ ind.shape ++ ([] : List Nat)) (ravel a).dtype) := rfl
    exact ⟨_, h2, by simp [take_kernel]⟩

/-- Concrete source array for the C4 witness. -/
def c4Arr : NDArray := ⟨7, [2, 3], [0, 1, 2, 3, 4, 5]⟩

/-- Concrete index array for the C4 witness. -/
def c4Ind : NDArray := ⟨3, [2, 1], [2, 0]⟩

/-- Witness for C4 at a concrete input. -/
theorem take_result_shape_witness :
    1 < c4Arr.ndim ∧
      ((∃ r, (take c4Arr (.array c4Ind) (some 1) none).1 = .ok r ∧
          r.shape = c4Arr.shape.take 1 ++ c4Ind.shape ++ c4Arr.shape.drop 2) ∧
      (∃ r2, (take c4Arr (.array c4Ind) none none).1 = .ok r2 ∧ r2.shape = c4Ind.shape)) :=
  ⟨by decide, take_result_shape c4Arr c4Ind 1 (by decide)⟩

theorem getD_map_range (g : Nat → Int) (m j : Nat) (h : j < m) :
    ((List.range m).map g).getD j 0 = g j := by
  rw [List.getD_eq_getElem?_getD, List.getElem?_map, List.getElem?_range h]
  rfl

/-- C3: for a source array, an integer index array whose values are all in
range, and a valid axis, each output element of `take` is the flat gather
documented by the kernel: for output linear index `i`, with
`right_dim = prod(a.shape[axis+1:])` and `index_count = indices.size`,
`left_block = i / (right_dim * index_count)`,
`index_slot = (i / right_dim) % index_count`, `right_block = i % right_dim`,
the output element equals the flattened source element at offset
`(left_block * index_count + indices[index_slot]) * right_dim + right_block`. -/
theorem take_gather_formula (a ind : NDArray) (ax : Nat) (hax : ax < a.ndim)
    (hrange : ∀ v ∈ ind.data, 0 ≤ v ∧ v < (a.shape.getD ax 0 : Int)) :
    ∃ r, (take a (.array ind) (some ax) none).1 = .ok r ∧
      ∀ i, i < prodl (a.shape.take ax ++ ind.shape ++ a.shape.drop (ax + 1)) →
        r.data.getD i 0
          = a.data.getD
              (((i / (prodl (a.shape.drop (ax + 1)) * prodl ind.shape)) * prodl ind.shape
                  + (ind.data.getD ((i / prodl (a.shape.drop (ax + 1))) % prodl ind.shape)
                      0).toNat)
                * prodl (a.shape.drop (ax + 1)) + i % prodl (a.shape.drop (ax + 1))) 0 := by
  have h1 : (take a (.array ind) (some ax) none).1
      = .ok (take_kernel a.data
          { ind with shape := List.replicate (a.shape.take ax).length 1 ++ ind.shape
              ++ List.replicate (a.shape.drop (ax + 1)).length 1 }
          (prodl ind.shape) (prodl (a.shape.drop (ax + 1)))
          (a.shape.take ax ++ ind.shape ++ a.shape.drop (ax + 1)) a.dtype) := by
    unfold take
    dsimp only
    rw [if_neg (Nat.not_le.mpr hax)]
    rfl
  refine ⟨_, h1, ?_⟩
  intro i hi
  unfold take_kernel
  rw [getD_map_range _ _ _ hi]
  dsimp only
  rw [bread_reshaped ind (a.shape.take ax) (a.shape.drop (ax + 1)) i]
  have hv : 0 ≤ ind.data.getD
      ((i / prodl (a.shape.drop (ax + 1))) % prodl ind.shape) 0 := by
    rcases Nat.lt_or_ge ((i / prodl (a.shape.drop (ax + 1))) % prodl ind.shape)
        ind.data.length with hlt | hge
    · refine (hrange _ ?_).1
      rw [List.getD_eq_getElem ind.data 0 hlt]
      exact List.getElem_mem hlt
    · rw [List.getD_eq_default _ _ hge]
  set v := ind.data.getD ((i / prodl (a.shape.drop (ax + 1))) % prodl ind.shape) 0 with hvdef
  have harith : ((Int.ofNat (i / (prodl (a.shape.drop (ax + 1)) * prodl ind.shape))
        * Int.ofNat (prodl ind.shape) + v) * Int.ofNat (prodl (a.shape.drop (ax + 1)))
        + Int.ofNat (i % prodl (a.shape.drop (ax + 1)))).toNat
      = ((i / (prodl (a.shape.drop (ax + 1)) * prodl ind.shape)) * prodl ind.shape + v.toNat)
        * prodl (a.shape.drop (ax + 1)) + i % prodl (a.shape.drop (ax + 1)) := by
    obtain ⟨w, hw⟩ : ∃ w : Nat, v = (w : Int) := ⟨v.toNat, (Int.toNat_of_nonneg hv).symm⟩
    rw [hw]
    norm_cast
  rw [harith]

/-- Concrete source array for the C3 witness. -/
def c3Arr : NDArray := ⟨7, [2, 3], [0, 1, 2, 3, 4, 5]⟩

/-- Concrete index array for the C3 witness. -/
def c3Ind : NDArray := ⟨3, [2], [2, 0]⟩

/-- Witness for C3 at a concrete input. -/
theorem take_gather_formula_witness :
    1 < c3Arr.ndim ∧ (∀ v ∈ c3Ind.data, 0 ≤ v ∧ v < (c3Arr.shape.getD 1 0 : Int)) ∧
      ∃ r, (take c3Arr (.array c3Ind) (some 1) none).1 = .ok r ∧
        ∀ i, i < prodl (c3Arr.shape.take 1 ++ c3Ind.shape ++ c3Arr.shape.drop (1 + 1)) →
          r.data.getD i 0
            = c3Arr.data.getD
                (((i / (prodl (c3Arr.shape.drop (1 + 1)) * prodl c3Ind.shape))
                      * prodl c3Ind.shape
                    + (c3Ind.data.getD
                        ((i / prodl (c3Arr.shape.drop (1 + 1))) % prodl c3Ind.shape) 0).toNat)
                  * prodl (c3Arr.shape.drop (1 + 1)) + i % prodl (c3Arr.shape.drop (1 + 1)))
                0 :=
  ⟨by decide, by decide, take_gather_formula c3Arr c3Ind 1 (by decide) (by decide)⟩

theorem ndim_def (x : NDArray) : x.ndim = x.shape.length := rfl

theorem bcCompat_self (s : List Nat) : bcCompat s s = true := by
  induction s with
  | nil => rfl
  | cons d t ih => simp [bcCompat, ih]

theorem rolled_head (x : NDArray) (ax : Nat) :
    (transposeN x (rollaxisPerm x.ndim ax)).shape.headD 0 = x.shape.getD ax 0 := rfl

/-- Concrete selector for the C1 counterexample. -/
def c1Sel : NDArray := ⟨3, [2], [0, 1]⟩

/-- Concrete choices array for the C1 counterexample. -/
def c1Choices : NDArray := ⟨9, [2, 2], [10, 20, 30, 40]⟩

/-- An output buffer whose dtype and shape both differ from what `choose`
produces. -/
def c1OutBad : NDArray := ⟨8, [5], [7, 7, 7, 7, 7]⟩

/-- Counterexample to C1 as stated: a `choose` call handed an `out` buffer of
mismatched dtype and shape succeeds — it returns a fresh result and raises
neither a type-mismatch nor a shape-mismatch error. -/
theorem choose_out_mismatch_no_error :
    c1OutBad.dtype ≠ c1Choices.dtype ∧
      choose c1Sel c1Choices (some c1OutBad) "raise" = .ok ⟨9, [2], [10, 40]⟩ ∧
      (⟨9, [2], [10, 40]⟩ : NDArray).shape ≠ c1OutBad.shape := by decide

/-- C1 (amended): only the array-indices form of `take` validates a
caller-supplied `out` buffer — a dtype mismatch fails with the type-mismatch
error and (dtype matching) a shape mismatch fails with the shape-mismatch
error, in both cases leaving `out` unmodified.  `choose` ignores `out`
entirely (its result never depends on it and no error is raised), and the
scalar-indices form of `take` performs no such validation: it writes the
selected slice into `out` (here: with matching shape and in-range index)
regardless of `out`'s dtype. -/
theorem take_out_validation_amended (a ind o : NDArray) (ax : Nat) (hax : ax < a.ndim) :
    (o.dtype ≠ a.dtype →
      take a (.array ind) (some ax) (some o)
        = (.error (.typeError "Output dtype mismatch"), some o)) ∧
    (o.dtype = a.dtype →
      o.shape ≠ a.shape.take ax ++ ind.shape ++ a.shape.drop (ax + 1) →
      take a (.array ind) (some ax) (some o)
        = (.error (.valueError "Output shape mismatch"), some o)) ∧
    (∀ (sa sc : NDArray) (oo : Option NDArray) (mode : String),
      choose sa sc oo mode = choose sa sc none mode) ∧
    (∀ (sa so : NDArray) (k : Int) (axs : Nat), axs < sa.ndim →
      0 ≤ k → k < (sa.shape.getD axs 0 : Int) →
      so.shape = (transposeN sa (rollaxisPerm sa.ndim axs)).shape.tail →
      ∃ o2, take sa (.scalar k) (some axs) (some so) = (.ok o2, some o2)
        ∧ o2.dtype = so.dtype) := by
  refine ⟨?_, ?_, fun sa sc oo mode => rfl, ?_⟩
  · intro hdt
    unfold take
    dsimp only
    rw [if_neg (Nat.not_le.mpr hax)]
    unfold takeCore
    dsimp only
    rw [if_pos hdt]
  · intro hdt hsh
    unfold take
    dsimp only
    rw [if_neg (Nat.not_le.mpr hax)]
    unfold takeCore
    dsimp only
    rw [if_neg (fun h => h hdt), if_pos hsh]
  · intro sa so k axs haxs hk0 hkd hshape
    unfold take
    dsimp only
    rw [if_neg (Nat.not_le.mpr haxs)]
    unfold takeCore
    dsimp only
    rw [if_neg (Int.not_lt.mpr hk0)]
    have hkd2 : k < ((transposeN sa (rollaxisPerm sa.ndim axs)).shape.headD 0 : Int) := by
      rw [rolled_head]
      exact hkd
    rw [if_pos ⟨hk0, hkd2⟩]
    unfold setItemAll
    have hcompat : bcCompat
        (padShape (transposeN sa (rollaxisPerm sa.ndim axs)).shape.tail so.ndim) so.shape
        = true := by
      rw [ndim_def so, hshape, padShape_self _ _ rfl, bcCompat_self]
    have hlen : (transposeN sa (rollaxisPerm sa.ndim axs)).shape.tail.length ≤ so.ndim := by
      rw [ndim_def so, hshape]
    rw [if_pos ⟨hlen, hcompat⟩]
    exact ⟨_, rfl, rfl⟩

/-- Concrete source array for the C1 witness. -/
def c1Arr : NDArray := ⟨7, [2, 3], [0, 1, 2, 3, 4, 5]⟩

/-- Concrete index array for the C1 witness. -/
def c1Ind : NDArray := ⟨3, [2], [2, 0]⟩

/-- Concrete output buffer (mismatched dtype) for the C1 witness. -/
def c1Out : NDArray := ⟨8, [2, 2], [9, 9, 9, 9]⟩

/-- Witness for the amended C1 at a concrete input. -/
theorem take_out_validation_amended_witness :
    1 < c1Arr.ndim ∧
      ((c1Out.dtype ≠ c1Arr.dtype →
        take c1Arr (.array c1Ind) (some 1) (some c1Out)
          = (.error (.typeError "Output dtype mismatch"), some c1Out)) ∧
      (c1Out.dtype = c1Arr.dtype →
        c1Out.shape ≠ c1Arr.shape.take 1 ++ c1Ind.shape ++ c1Arr.shape.drop (1 + 1) →
        take c1Arr (.array c1Ind) (some 1) (some c1Out)
          = (.error (.valueError "Output shape mismatch"), some c1Out)) ∧
      (∀ (sa sc : NDArray) (oo : Option NDArray) (mode : String),
        choose sa sc oo mode = choose sa sc none mode) ∧
      (∀ (sa so : NDArray) (k : Int) (axs : Nat), axs < sa.ndim →
        0 ≤ k → k < (sa.shape.getD axs 0 : Int) →
        so.shape = (transposeN sa (rollaxisPerm sa.ndim axs)).shape.tail →
        ∃ o2, take sa (.scalar k) (some axs) (some so) = (.ok o2, some o2)
          ∧ o2.dtype = so.dtype)) :=
  ⟨by decide, take_out_validation_amended c1Arr c1Ind c1Out 1 (by decide)⟩

theorem toNat_max_zero (x : Int) : (max 0 x).toNat = x.toNat := by
  rcases le_total 0 x with h | h
  · rw [max_eq_right h]
  · rw [max_eq_left h, Int.toNat_zero, Int.toNat_of_nonpos h]

/-- C7: with the two selected axes reordered to the back (swapped, and the
offset negated, when `offset < 0`), `diagonal` computes
`diag_size = max(0, min(trailing_dim0, trailing_dim1 - offset))`, its result
shape is the leading axes followed by `diag_size`, and when `diag_size = 0` it
returns a freshly allocated empty array of that shape (no error, and not a
view of the source buffer). -/
theorem diagonal_shape_and_empty (a : SArr) (offset : Int) (axis1 axis2 : Nat)
    (a1 : SArr) (off : Int) (ht : diagTrans a offset axis1 axis2 = (a1, off)) :
    (diagonal a offset axis1 axis2).shape
      = a1.shape.dropLast.dropLast
        ++ [(max 0 (min (a1.shape.getD (a1.shape.length - 2) 0 : Int)
              ((a1.shape.getD (a1.shape.length - 1) 0 : Int) - off))).toNat] ∧
    ((max 0 (min (a1.shape.getD (a1.shape.length - 2) 0 : Int)
        ((a1.shape.getD (a1.shape.length - 1) 0 : Int) - off))).toNat = 0 →
      diagonal a offset axis1 axis2
        = emptyS (a1.shape.dropLast.dropLast
            ++ [(max 0 (min (a1.shape.getD (a1.shape.length - 2) 0 : Int)
                  ((a1.shape.getD (a1.shape.length - 1) 0 : Int) - off))).toNat]) a.dtype) := by
  unfold diagonal
  dsimp only
  rw [ht]
  dsimp only
  rw [toNat_max_zero]
  constructor
  · by_cases h : (min ((a1.shape.getD (a1.shape.length - 2) 0 : Nat) : Int)
        (((a1.shape.getD (a1.shape.length - 1) 0 : Nat) : Int) - off)).toNat = 0
    · rw [if_pos h]
      rfl
    · rw [if_neg h]
  · intro h
    rw [if_pos h]

/-- Concrete strided source array for the C7 witness. -/
def c7Arr : SArr := ⟨7, [3, 3], [3, 1], 0, [0, 1, 2, 3, 4, 5, 6, 7, 8]⟩

/-- Witness for C7 at a concrete input (offset 5 makes the diagonal empty). -/
theorem diagonal_shape_and_empty_witness :
    diagTrans c7Arr 5 0 1 = (c7Arr, 5) ∧
      ((diagonal c7Arr 5 0 1).shape
        = c7Arr.shape.dropLast.dropLast
          ++ [(max 0 (min (c7Arr.shape.getD (c7Arr.shape.length - 2) 0 : Int)
                ((c7Arr.shape.getD (c7Arr.shape.length - 1) 0 : Int) - 5))).toNat] ∧
      ((max 0 (min (c7Arr.shape.getD (c7Arr.shape.length - 2) 0 : Int)
          ((c7Arr.shape.getD (c7Arr.shape.length - 1) 0 : Int) - 5))).toNat = 0 →
        diagonal c7Arr 5 0 1
          = emptyS (c7Arr.shape.dropLast.dropLast
              ++ [(max 0 (min (c7Arr.shape.getD (c7Arr.shape.length - 2) 0 : Int)
                    ((c7Arr.shape.getD (c7Arr.shape.length - 1) 0 : Int) - 5))).toNat])
              c7Arr.dtype)) :=
  ⟨by decide, diagonal_shape_and_empty c7Arr 5 0 1 c7Arr 5 (by decide)⟩

theorem diagonal_01_square (dt : Nat) (n : Nat) (s0 s1 : Int) (off : Int) (base : List Int) :
    diagonal ⟨dt, [n, n], [s0, s1], off, base⟩ 0 0 1
      = if (min (n : Int) ((n : Int) - 0)).toNat = 0
        then emptyS [(min (n : Int) ((n : Int) - 0)).toNat] dt
        else ⟨dt, [(min (n : Int) ((n : Int) - 0)).toNat],
            [s1 + s0], off + 0 * s1, base⟩ := rfl

/-- C8: on a square 2D array of positive side `n`, `diagonal(a, 0, 0, 1)` is a
rank-1 view of length `n` over the same base buffer, at the same offset, whose
single stride is the sum of the two strides of `a`, and whose `i`-th element
equals `a[i, i]` for every `i < n`. -/
theorem diagonal_main_diagonal (a : SArr) (n : Nat) (s0 s1 : Int)
    (hsh : a.shape = [n, n]) (hst : a.strides = [s0, s1]) (hn : 0 < n) :
    (diagonal a 0 0 1).shape = [n] ∧
    (diagonal a 0 0 1).strides = [s1 + s0] ∧
    (diagonal a 0 0 1).base = a.base ∧
    (diagonal a 0 0 1).offset = a.offset ∧
    ∀ i, i < n → sget (diagonal a 0 0 1) [i] = sget a [i, i] := by
  obtain ⟨adt, ash, ast, aoff, abase⟩ := a
  obtain rfl : ash = [n, n] := hsh
  obtain rfl : ast = [s0, s1] := hst
  have hds : (min (n : Int) ((n : Int) - 0)).toNat = n := by
    rw [Int.sub_zero, min_self, Int.toNat_natCast]
  have hne : ¬ ((min (n : Int) ((n : Int) - 0)).toNat = 0) := by
    rw [hds]
    omega
  rw [diagonal_01_square, if_neg hne]
  refine ⟨by rw [hds], rfl, rfl, by simp, ?_⟩
  intro i hi
  show abase.getD ((aoff + 0 * s1 + ((s1 + s0) * (i : Int) + 0)).toNat) 0
      = abase.getD ((aoff + (s0 * (i : Int) + (s1 * (i : Int) + 0))).toNat) 0
  have harg : aoff + 0 * s1 + ((s1 + s0) * (i : Int) + 0)
      = aoff + (s0 * (i : Int) + (s1 * (i : Int) + 0)) := by ring
  rw [harg]

/-- Concrete strided source array for the C8 witness. -/
def c8Arr : SArr := ⟨7, [3, 3], [3, 1], 0, [0, 1, 2, 3, 4, 5, 6, 7, 8]⟩

/-- Witness for C8 at a concrete input. -/
theorem diagonal_main_diagonal_witness :
    c8Arr.shape = [3, 3] ∧ c8Arr.strides = [(3 : Int), 1] ∧ 0 < 3 ∧
      ((diagonal c8Arr 0 0 1).shape = [3] ∧
      (diagonal c8Arr 0 0 1).strides = [(1 : Int) + 3] ∧
      (diagonal c8Arr 0 0 1).base = c8Arr.base ∧
      (diagonal c8Arr 0 0 1).offset = c8Arr.offset ∧
      ∀ i, i < 3 → sget (diagonal c8Arr 0 0 1) [i] = sget c8Arr [i, i]) :=
  ⟨rfl, rfl, by decide, diagonal_main_diagonal c8Arr 3 3 1 rfl rfl (by decide)⟩
